import Mathlib

/-!
Shallow embedding of the `labtohub` Squash Publisher (src/main.rs).

The program shells out to `git` and to interactive prompts; we model the
outside world as a `World` of response functions (exit status for commands
spawned with `status()`, captured stdout/stderr for commands spawned with
`output()`, and answers to confirmation / text prompts), and each function
of the program as a value in a writer-plus-error monad `EW` that records
the trace of external effects it issues together with its `Result`.
-/

/-- Exit information of a finished process: `code = none` models termination
by a signal (Rust `ExitStatus::code()` returning `None`). -/
structure ExitStatus where
  code : Option Int
deriving Repr, DecidableEq

/-- Rust `ExitStatus::success()`: the process exited with code 0. -/
def ExitStatus.success (s : ExitStatus) : Bool := s.code == some 0

/-- Outcome of a process spawned with captured output (`Command::output()`).
`stdout`/`stderr` are the lossy-UTF-8 decodings of the captured bytes. -/
structure CapturedOutput where
  status : ExitStatus
  stdout : String
  stderr : String
deriving Repr, DecidableEq

/-- Errors surfaced by the program (the `anyhow::Error` values it can
return), kept structured: `ioError` is a propagated spawn/prompt I/O error,
the other constructors are the program's own `bail!` messages with the data
that the corresponding format string interpolates. -/
inductive Err where
  | ioError : Err
  | commandFailed (cmd : String) (args : List String) : Err
  | mergeBaseFailed (left right stderrTrimmed : String) : Err
  | lsRemoteFailed (code : Option Int) : Err
deriving Repr, DecidableEq

/-- One external effect issued by the program, in order. -/
inductive Event where
  | exec (cmd : String) (args : List String) : Event
  | execOut (cmd : String) (args : List String) : Event
  | confirm (prompt : String) : Event
  | input (prompt : String) : Event
  | print (s : String) : Event
deriving Repr, DecidableEq

/-- The outside world: what each spawned command and each prompt would
return if issued. -/
structure World where
  exec : String → List String → Option ExitStatus
  execOut : String → List String → Option CapturedOutput
  confirm : String → Bool
  input : String → String

/-- Rust `char::is_whitespace`: the Unicode `White_Space` property. -/
def isRustWhitespace (c : Char) : Bool :=
  let n := c.toNat
  n == 0x9 || n == 0xA || n == 0xB || n == 0xC || n == 0xD || n == 0x20 ||
  n == 0x85 || n == 0xA0 || n == 0x1680 || (0x2000 ≤ n && n ≤ 0x200A) ||
  n == 0x2028 || n == 0x2029 || n == 0x202F || n == 0x205F || n == 0x3000

/-- Helper for `splitWhitespace`: accumulates the current word (reversed). -/
def splitWsAux : List Char → List Char → List (List Char)
  | [], acc => if acc.isEmpty then [] else [acc.reverse]
  | c :: rest, acc =>
    if isRustWhitespace c then
      if acc.isEmpty then splitWsAux rest []
      else acc.reverse :: splitWsAux rest []
    else splitWsAux rest (c :: acc)

/-- Rust `str::split_whitespace` (collected): the maximal non-whitespace
runs of the string, in order. -/
def splitWhitespace (s : String) : List String :=
  (splitWsAux s.data []).map String.mk

/-- Digit-string accumulator for `parseU64`. -/
def parseDigits : List Char → Nat → Option Nat
  | [], acc => some acc
  | c :: rest, acc =>
    if 48 ≤ c.toNat && c.toNat ≤ 57 then
      parseDigits rest (acc * 10 + (c.toNat - 48))
    else none

/-- Rust `u64::from_str`: an optional leading `+`, then one or more ASCII
digits, value below 2^64; anything else (including overflow) is a parse
error. -/
def parseU64 (s : String) : Option Nat :=
  let l :=
    match s.data with
    | '+' :: rest => rest
    | l => l
  if l.isEmpty then none
  else
    match parseDigits l 0 with
    | none => none
    | some v => if v < 2 ^ 64 then some v else none

/-- Rust `str::trim`: strip leading and trailing Unicode whitespace. -/
def rustTrim (s : String) : String :=
  String.mk (((s.data.dropWhile isRustWhitespace).reverse.dropWhile
    isRustWhitespace).reverse)

/-- Decidable prefix test on character lists. -/
def charsPre : List Char → List Char → Bool
  | [], _ => true
  | _ :: _, [] => false
  | a :: as, b :: bs => a == b && charsPre as bs

/-- Decidable substring (infix) test on character lists. -/
def charsSub (pat : List Char) : List Char → Bool
  | [] => pat.isEmpty
  | b :: rest => charsPre pat (b :: rest) || charsSub pat rest

/-- Rust `str::contains` with a string pattern: substring containment. -/
def strContains (s pat : String) : Bool :=
  charsSub pat.data s.data

/-- `parse_ahead_behind` from src/main.rs: split on whitespace; with at
least two fields, parse each of the first two as `u64` defaulting to 0;
otherwise `(0, 0)`. -/
def parse_ahead_behind (s : String) : Nat × Nat :=
  match splitWhitespace s with
  | a :: b :: _ => ((parseU64 a).getD 0, (parseU64 b).getD 0)
  | _ => (0, 0)

/-- The writer-plus-error monad of the embedding: a computation records the
trace of external `Event`s it issues and either produces a value or the
`anyhow::Error` the Rust function returns (`?` propagation). -/
def EW (α : Type) : Type := List Event × Except Err α

/-- Monadic bind on `EW`: append traces; an error short-circuits. -/
def EW.bind {α β : Type} (x : EW α) (f : α → EW β) : EW β :=
  match x.2 with
  | Except.ok a => (x.1 ++ (f a).1, (f a).2)
  | Except.error e => (x.1, Except.error e)

/-- Monadic unit on `EW`: no effects, a value. -/
def EW.pure {α : Type} (a : α) : EW α := ([], Except.ok a)

instance : Monad EW where
  pure := EW.pure
  bind := EW.bind

/-- Raise an error (a `bail!` or a propagated I/O error). -/
def EW.fail {α : Type} (e : Err) : EW α := ([], Except.error e)

/-- Spawn `cmd args` with `Command::status()` (inherited or null streams);
`none` models an I/O error from the spawn itself. -/
def execCmd (w : World) (cmd : String) (args : List String) :
    EW (Option ExitStatus) :=
  ([Event.exec cmd args], Except.ok (w.exec cmd args))

/-- Spawn `cmd args` with `Command::output()` (captured streams). -/
def execCaptured (w : World) (cmd : String) (args : List String) :
    EW (Option CapturedOutput) :=
  ([Event.execOut cmd args], Except.ok (w.execOut cmd args))

/-- A `dialoguer::Confirm` prompt and its answer. -/
def askConfirm (w : World) (p : String) : EW Bool :=
  ([Event.confirm p], Except.ok (w.confirm p))

/-- A `dialoguer::Input` text prompt and its answer. -/
def askInput (w : World) (p : String) : EW String :=
  ([Event.input p], Except.ok (w.input p))

/-- A `println!` to standard output. -/
def printLn (s : String) : EW Unit :=
  ([Event.print s], Except.ok ())

/-- `run` from src/main.rs: spawn with inherited streams, `Ok(())` on a
success status, otherwise `bail!("Command failed: {} {:?}", cmd, args)`. -/
def run (w : World) (cmd : String) (args : List String) : EW Unit := do
  let st? ← execCmd w cmd args
  match st? with
  | none => EW.fail Err.ioError
  | some st =>
    if st.success then EW.pure ()
    else EW.fail (Err.commandFailed cmd args)

/-- `run_output` from src/main.rs: spawn with captured streams; on a success
status return the trimmed stdout, otherwise the same `bail!` as `run`. -/
def run_output (w : World) (cmd : String) (args : List String) : EW String := do
  let out? ← execCaptured w cmd args
  match out? with
  | none => EW.fail Err.ioError
  | some output =>
    if output.status.success then EW.pure (rustTrim output.stdout)
    else EW.fail (Err.commandFailed cmd args)

/-- `merge_base` from src/main.rs: run `git merge-base left right` with
captured output; on success `Some(trimmed stdout)`; on failure, if the
stderr contains one of five fixed patterns, or both trimmed stdout and
stderr are empty, `None`; otherwise `bail!` with the two refs and the
trimmed stderr. -/
def merge_base (w : World) (left right : String) : EW (Option String) := do
  let out? ← execCaptured w "git" ["merge-base", left, right]
  match out? with
  | none => EW.fail Err.ioError
  | some output =>
    if output.status.success then
      EW.pure (some (rustTrim output.stdout))
    else
      if strContains output.stderr "No merge base"
          || strContains output.stderr "no common ancestor"
          || strContains output.stderr "Not a valid object name"
          || strContains output.stderr "unknown revision"
          || strContains output.stderr "Needed a single revision"
          || ((rustTrim output.stderr).isEmpty && (rustTrim output.stdout).isEmpty) then
        EW.pure none
      else
        EW.fail (Err.mergeBaseFailed left right (rustTrim output.stderr))

/-- `sync_gitlab_main` from src/main.rs: attempt a fast-forward-only pull;
on failure report ahead/behind counts, ask to hard-reset local main to
origin/main (decline prints "Aborted." and returns `Ok(())`), on accept
hard-reset. -/
def sync_gitlab_main (w : World) : EW Unit := do
  let st? ← execCmd w "git" ["pull", "origin", "main", "--ff-only"]
  match st? with
  | none => EW.fail Err.ioError
  | some st =>
    if st.success then EW.pure ()
    else do
      let counts ← run_output w "git"
        ["rev-list", "--left-right", "--count", "main...origin/main"]
      let ab := parse_ahead_behind counts
      printLn ("Local main diverged from origin/main (local +" ++
        toString ab.1 ++ ", remote +" ++ toString ab.2 ++ ").")
      let ok ← askConfirm w
        "Reset local main to origin/main? Local commits will be lost."
      if !ok then do
        printLn "Aborted."
        EW.pure ()
      else
        run w "git" ["reset", "--hard", "origin/main"]

/-- `github_branch_exists` from src/main.rs: `git ls-remote --exit-code
github refs/heads/main` with null streams; exit 0 means the branch exists,
exit 2 means it does not, any other exit code or a missing code is a
`bail!`. -/
def github_branch_exists (w : World) : EW Bool := do
  let st? ← execCmd w "git" ["ls-remote", "--exit-code", "github", "refs/heads/main"]
  match st? with
  | none => EW.fail Err.ioError
  | some st =>
    match st.code with
    | some c =>
      if c = 0 then EW.pure true
      else if c = 2 then EW.pure false
      else EW.fail (Err.lsRemoteFailed (some c))
    | none => EW.fail (Err.lsRemoteFailed none)

/-- The `-m` extraction at the top of `main`: with at least two arguments
of which the first is `-m`, the message is the second; otherwise it stays
the initial empty string. -/
def messageFromArgs (argv : List String) : String :=
  match argv with
  | a0 :: a1 :: _ => if a0 = "-m" then a1 else ""
  | _ => ""

/-- `main` from src/main.rs, over the argument vector (program name already
skipped): read the message (prompting when empty), confirm, switch to main,
sync with origin, then publish to the `github` remote along the bootstrap,
force-overwrite, or incremental squash path. -/
def mainT (w : World) (argv : List String) : EW Unit := do
  let message0 := messageFromArgs argv
  let message ←
    if message0.isEmpty then askInput w "Enter commit message"
    else EW.pure message0
  printLn ("Commit: \"" ++ message ++ "\"")
  let cont ← askConfirm w "Continue?"
  if !cont then do
    printLn "Aborted."
    EW.pure ()
  else do
    printLn "Syncing GitLab main..."
    run w "git" ["switch", "main"]
    sync_gitlab_main w
    let github_exists ← github_branch_exists w
    if !github_exists then do
      printLn "GitHub empty -> publish initial squashed release"
      run w "git" ["add", "."]
      let tree ← run_output w "git" ["write-tree"]
      let commit ← run_output w "git" ["commit-tree", tree, "-m", message]
      run w "git" ["reset", "--hard", commit]
      run w "git" ["push", "github", "main", "--force"]
      printLn ("Published to GitHub (initial, squashed): \"" ++ message ++ "\".")
    else do
      printLn "Fetching github/main..."
      run w "git" ["fetch", "github"]
      let base? ← merge_base w "main" "github/main"
      match base? with
      | none => do
        printLn "GitHub history unrelated to GitLab."
        let force ← askConfirm w
          "Force-publish current main to github/main? This overwrites GitHub."
        if !force then do
          printLn "Aborted."
          EW.pure ()
        else do
          run w "git" ["add", "."]
          let tree ← run_output w "git" ["write-tree"]
          let commit ← run_output w "git" ["commit-tree", tree, "-m", message]
          run w "git" ["reset", "--hard", commit]
          run w "git" ["push", "github", "main", "--force"]
          printLn ("Published to GitHub (force overwrite): \"" ++ message ++ "\".")
      | some base => do
        printLn ("Base commit: " ++ base)
        printLn "Squashing and force-pushing..."
        run w "git" ["reset", base]
        run w "git" ["add", "."]
        let result? ← execCmd w "git" ["commit", "-m", message]
        match result? with
        | none => EW.fail Err.ioError
        | some result =>
          if !result.success then do
            printLn "No changes since last GitHub release. Nothing to publish."
            EW.pure ()
          else do
            run w "git" ["push", "github", "main", "--force"]
            printLn ("Published to GitHub: \"" ++ message ++ "\".")

/-- An exit status of 0. -/
def okStatus : ExitStatus := ⟨some 0⟩

/-- A world where every command succeeds (captured commands print `cafe`),
every confirmation is answered yes, and the text prompt answers `hello`. -/
def wBase : World where
  exec := fun _ _ => some okStatus
  execOut := fun _ _ => some ⟨okStatus, "cafe", ""⟩
  confirm := fun _ => true
  input := fun _ => "hello"

/-- A world whose `github` remote has no main branch: the ls-remote
existence check exits 2, everything else succeeds. -/
def wBootstrap : World :=
  { wBase with
    exec := fun _ args =>
      if args = ["ls-remote", "--exit-code", "github", "refs/heads/main"]
      then some ⟨some 2⟩ else some okStatus }

/-- A world where the fast-forward pull from origin fails, the ahead/behind
query reports `1 2`, and the user answers yes only to the initial
"Continue?" prompt — in particular the hard-reset prompt is declined. All
other commands succeed (so github/main exists and a merge base is found). -/
def wDecline : World :=
  { wBase with
    exec := fun _ args =>
      if args = ["pull", "origin", "main", "--ff-only"] then some ⟨some 1⟩
      else some okStatus
    execOut := fun _ args =>
      if args = ["rev-list", "--left-right", "--count", "main...origin/main"]
      then some ⟨okStatus, "1\t2", ""⟩
      else some ⟨okStatus, "cafe", ""⟩
    confirm := fun p => p == "Continue?" }

/-- A world on the incremental path where the commit step finds nothing to
commit (`git commit` exits 1); everything else succeeds. -/
def wIncrNothing : World :=
  { wBase with
    exec := fun _ args =>
      if args.head? = some "commit" then some ⟨some 1⟩
      else some okStatus }

/-- An ASCII lowercase letter or digit, by code point. -/
def isLowerAlnum (c : Char) : Bool :=
  (97 ≤ c.toNat && c.toNat ≤ 122) || (48 ≤ c.toNat && c.toNat ≤ 57)

/-- An ASCII uppercase letter, by code point. -/
def isUpperAlpha (c : Char) : Bool :=
  65 ≤ c.toNat && c.toNat ≤ 90

/-- ASCII lower-casing of a single character: shift `A`..`Z` down by 32
code points, leave everything else alone. -/
def lowerChar (c : Char) : Char :=
  if h : isUpperAlpha c = true then
    Char.ofNatAux (c.toNat + 32)
      (Or.inl (by
        simp only [isUpperAlpha, Bool.and_eq_true, decide_eq_true_eq] at h
        omega))
  else c

/-- Modelled from the spec: one character of the Branch Name Deriver's
sanitization (spec §4.1) — lower-case the character, keep it when it is an
ASCII letter or digit, replace it with a hyphen otherwise. -/
def sanitizeChar (c : Char) : Char :=
  if isLowerAlnum (lowerChar c) || isUpperAlpha (lowerChar c) then lowerChar c
  else '-'

/-- Modelled from the spec: collapse every run of two or more hyphens into
a single hyphen (spec §4.1). -/
def collapseHyphens : List Char → List Char
  | [] => []
  | [c] => [c]
  | a :: b :: rest =>
    if a == '-' && b == '-' then collapseHyphens (b :: rest)
    else a :: collapseHyphens (b :: rest)

/-- No two consecutive hyphens anywhere in the list. -/
def noDoubleHyphen : List Char → Bool
  | [] => true
  | [_] => true
  | a :: b :: rest => !(a == '-' && b == '-') && noDoubleHyphen (b :: rest)

/-- Modelled from the spec: trim leading and trailing hyphens (spec §4.1). -/
def trimHyphens (l : List Char) : List Char :=
  List.rdropWhile (fun c => c == '-') (l.dropWhile (fun c => c == '-'))

/-- The sanitize-collapse-trim pipeline of the Branch Name Deriver on the
character list of the message. -/
def deriveChars (l : List Char) : List Char :=
  trimHyphens (collapseHyphens (l.map sanitizeChar))

/-- Modelled from the spec: the Branch Name Deriver `derive` (spec §4.1) is
not part of this repository's single source file, so it is defined from the
spec's words — lower-case every character; replace every character that is
not an ASCII letter or digit with a hyphen; collapse any run of two or more
hyphens into one; trim leading/trailing hyphens; if the result is empty,
return the literal fallback "new". -/
def derive (s : String) : String :=
  let r := deriveChars s.data
  if r.isEmpty then "new" else String.mk r

/-- The language of the regular expression `[a-z0-9]+(-[a-z0-9]+)*` (fully
anchored): a nonempty string of lowercase ASCII alphanumerics and hyphens
with no leading hyphen, no trailing hyphen and no two consecutive
hyphens. -/
def goodName (s : String) : Prop :=
  s.data ≠ [] ∧ (∀ c ∈ s.data, isLowerAlnum c = true ∨ c = '-') ∧
  s.data.head? ≠ some '-' ∧ s.data.getLast? ≠ some '-' ∧
  noDoubleHyphen s.data = true

instance (s : String) : Decidable (goodName s) := by
  unfold goodName
  infer_instance


/-- A captured merge-base outcome: exit 1 with a "Not a valid object name"
message on stderr. -/
def mbOut : CapturedOutput := ⟨⟨some 1⟩, "", "fatal: Not a valid object name github/main"⟩

/-- A world whose merge-base command fails with `mbOut`; everything else
succeeds. -/
def wNoBase : World :=
  { wBase with
    execOut := fun _ args =>
      if args.head? = some "merge-base" then some mbOut
      else some ⟨okStatus, "cafe", ""⟩ }

@[simp]
theorem EW_bind_eq {α β : Type} (x : EW α) (f : α → EW β) :
    x >>= f = EW.bind x f := rfl

@[simp]
theorem EW_bind_pair_ok {α β : Type} (t : List Event) (a : α) (f : α → EW β) :
    EW.bind (t, Except.ok a) f = (t ++ (f a).1, (f a).2) := rfl

@[simp]
theorem EW_bind_pair_error {α β : Type} (t : List Event) (e : Err)
    (f : α → EW β) : EW.bind (t, Except.error e) f = (t, Except.error e) := rfl

@[simp]
theorem EW_pure_eq {α : Type} (a : α) :
    (Pure.pure a : EW α) = ([], Except.ok a) := rfl


/-- C1: the claim states that after a failed fast-forward pull and a
declined reset prompt, the run terminates at that point and publishes
nothing. The code instead prints "Aborted." inside `sync_gitlab_main`,
returns `Ok(())`, and `main` continues: in the concrete world `wDecline`
(pull fails, reset declined, github/main exists, changes present) the run
still performs the existence check, the commit, and the force-push to the
mirror remote, and exits successfully. -/
theorem aborted_message_does_not_abort_run :
    (mainT wDecline ["-m", "msg"]).2 = Except.ok () ∧
    Event.print "Aborted." ∈ (mainT wDecline ["-m", "msg"]).1 ∧
    Event.exec "git" ["ls-remote", "--exit-code", "github", "refs/heads/main"]
      ∈ (mainT wDecline ["-m", "msg"]).1 ∧
    Event.exec "git" ["commit", "-m", "msg"] ∈ (mainT wDecline ["-m", "msg"]).1 ∧
    Event.exec "git" ["push", "github", "main", "--force"]
      ∈ (mainT wDecline ["-m", "msg"]).1 := by
  refine ⟨rfl, ?_, ?_, ?_, ?_⟩ <;> decide

/-- C2 counterexample: on the input "7" — a single field that is a valid
integer — the claim requires the result (7, 0); `parse_ahead_behind`
returns (0, 0) because fewer than two fields short-circuit both fields to
zero. -/
theorem parse_ahead_behind_single_field_cex :
    parse_ahead_behind "7" = (0, 0) ∧ parse_ahead_behind "7" ≠ (7, 0) := by
  decide

/-- C2 (amended): for every input string `parse_ahead_behind` returns a
pair without failing; when the input has at least two whitespace-separated
fields the first two are parsed as integers, each defaulting independently
to zero when it does not parse; when fewer than two fields are present the
result is (0, 0) — in particular a lone valid integer yields (0, 0), not
that integer paired with zero. -/
theorem parse_ahead_behind_fields :
    ∀ (s a b : String) (rest : List String),
      (splitWhitespace s = a :: b :: rest →
        parse_ahead_behind s = ((parseU64 a).getD 0, (parseU64 b).getD 0)) ∧
      ((splitWhitespace s).length < 2 → parse_ahead_behind s = (0, 0)) := by
  intro s a b rest
  constructor
  · intro h
    simp [parse_ahead_behind, h]
  · intro h
    match hs : splitWhitespace s with
    | [] => simp [parse_ahead_behind, hs]
    | [x] => simp [parse_ahead_behind, hs]
    | x :: y :: t => rw [hs] at h; simp at h; omega

/-- Witness for the amended C2 theorem at the concrete input "3 x". -/
theorem parse_ahead_behind_fields_witness :
    splitWhitespace "3 x" = ["3", "x"] ∧ parse_ahead_behind "3 x" = (3, 0) :=
  ⟨by decide, (parse_ahead_behind_fields "3 x" "3" "x" []).1 (by decide)⟩

/-- C7: `parse_ahead_behind` maps "3\t5" to (3, 5), "" to (0, 0),
"abc def" to (0, 0), and returns a result on every input string. -/
theorem parse_ahead_behind_examples_total :
    parse_ahead_behind "3\t5" = (3, 5) ∧ parse_ahead_behind "" = (0, 0) ∧
    parse_ahead_behind "abc def" = (0, 0) ∧
    ∀ s : String, ∃ ab : Nat × Nat, parse_ahead_behind s = ab :=
  ⟨by decide, by decide, by decide, fun s => ⟨parse_ahead_behind s, rfl⟩⟩

/-- C9: `run` succeeds exactly when the spawned command exits with a
success status, and a spawned-but-unsuccessful command yields the error
naming the command and its arguments; `run_output` succeeds under the same
conditions, returning the trimmed captured stdout (the stderr of the
captured output plays no part in the success value), and fails with the
same error shape otherwise. -/
theorem run_and_run_output_spec :
    ∀ (w : World) (cmd : String) (args : List String),
      ((run w cmd args).2 = Except.ok () ↔
        ∃ st, w.exec cmd args = some st ∧ st.success = true) ∧
      (∀ st, w.exec cmd args = some st → st.success = false →
        (run w cmd args).2 = Except.error (Err.commandFailed cmd args)) ∧
      ((∃ s, (run_output w cmd args).2 = Except.ok s) ↔
        ∃ o, w.execOut cmd args = some o ∧ o.status.success = true) ∧
      (∀ o, w.execOut cmd args = some o → o.status.success = true →
        (run_output w cmd args).2 = Except.ok (rustTrim o.stdout)) ∧
      (∀ o, w.execOut cmd args = some o → o.status.success = false →
        (run_output w cmd args).2 = Except.error (Err.commandFailed cmd args)) := by
  intro w cmd args
  refine ⟨?_, ?_, ?_, ?_, ?_⟩
  · constructor
    · intro hok
      match h : w.exec cmd args with
      | none => simp [run, execCmd, EW.fail, h] at hok
      | some st =>
        match hs : st.success with
        | false => simp [run, execCmd, EW.fail, h, hs] at hok
        | true => exact ⟨st, rfl, hs⟩
    · rintro ⟨st, h, hs⟩
      simp [run, execCmd, EW.pure, h, hs]
  · intro st h hs
    simp [run, execCmd, EW.fail, h, hs]
  · constructor
    · rintro ⟨s, hok⟩
      match h : w.execOut cmd args with
      | none => simp [run_output, execCaptured, EW.fail, h] at hok
      | some o =>
        match hs : o.status.success with
        | false => simp [run_output, execCaptured, EW.fail, h, hs] at hok
        | true => exact ⟨o, rfl, hs⟩
    · rintro ⟨o, h, hs⟩
      exact ⟨rustTrim o.stdout, by simp [run_output, execCaptured, EW.pure, h, hs]⟩
  · intro o h hs
    simp [run_output, execCaptured, EW.pure, h, hs]
  · intro o h hs
    simp [run_output, execCaptured, EW.fail, h, hs]

/-- Witness for C9 at a concrete world: `git commit` exits 1 in
`wIncrNothing`, so `run` fails naming the command and arguments. -/
theorem run_and_run_output_spec_witness :
    wIncrNothing.exec "git" ["commit", "-m", "m"] = some ⟨some 1⟩ ∧
    ExitStatus.success ⟨some 1⟩ = false ∧
    (run wIncrNothing "git" ["commit", "-m", "m"]).2 =
      Except.error (Err.commandFailed "git" ["commit", "-m", "m"]) :=
  ⟨by decide, by decide,
    (run_and_run_output_spec wIncrNothing "git" ["commit", "-m", "m"]).2.1
      ⟨some 1⟩ (by decide) (by decide)⟩

/-- C4: `github_branch_exists` maps exit code 0 to `Ok(true)`, exit code 2
to `Ok(false)`, any other exit code (for example 1 or 17) to the ls-remote
error naming that code, termination without an exit code to the same error
with no code, and spawn failure to the propagated I/O error. -/
theorem github_branch_exists_exit_codes :
    ∀ w : World,
      (w.exec "git" ["ls-remote", "--exit-code", "github", "refs/heads/main"] =
          some ⟨some 0⟩ → (github_branch_exists w).2 = Except.ok true) ∧
      (w.exec "git" ["ls-remote", "--exit-code", "github", "refs/heads/main"] =
          some ⟨some 2⟩ → (github_branch_exists w).2 = Except.ok false) ∧
      (∀ c : Int, c ≠ 0 → c ≠ 2 →
        w.exec "git" ["ls-remote", "--exit-code", "github", "refs/heads/main"] =
          some ⟨some c⟩ →
        (github_branch_exists w).2 = Except.error (Err.lsRemoteFailed (some c))) ∧
      (w.exec "git" ["ls-remote", "--exit-code", "github", "refs/heads/main"] =
          some ⟨none⟩ →
        (github_branch_exists w).2 = Except.error (Err.lsRemoteFailed none)) ∧
      (w.exec "git" ["ls-remote", "--exit-code", "github", "refs/heads/main"] =
          none → (github_branch_exists w).2 = Except.error Err.ioError) := by
  intro w
  refine ⟨?_, ?_, ?_, ?_, ?_⟩
  · intro h
    simp [github_branch_exists, execCmd, EW.pure, h]
  · intro h
    simp [github_branch_exists, execCmd, EW.pure, h]
  · intro c h0 h2 h
    simp [github_branch_exists, execCmd, EW.pure, EW.fail, h, h0, h2]
  · intro h
    simp [github_branch_exists, execCmd, EW.fail, h]
  · intro h
    simp [github_branch_exists, execCmd, EW.fail, h]

/-- Witness for C4: in `wBootstrap` the listing command exits 2 and the
check returns `Ok(false)`; in `wBase` it exits 0 and the check returns
`Ok(true)`. -/
theorem github_branch_exists_exit_codes_witness :
    wBootstrap.exec "git" ["ls-remote", "--exit-code", "github", "refs/heads/main"] =
      some ⟨some 2⟩ ∧
    (github_branch_exists wBootstrap).2 = Except.ok false ∧
    (github_branch_exists wBase).2 = Except.ok true :=
  ⟨by decide,
    (github_branch_exists_exit_codes wBootstrap).2.1 (by decide),
    (github_branch_exists_exit_codes wBase).1 (by decide)⟩

/-- C3: on a captured merge-base outcome with a non-success status,
`merge_base` returns `Ok(None)` exactly when the stderr contains one of the
five fixed patterns or both trimmed stdout and stderr are empty; any other
failure yields the error naming the two refs and the trimmed stderr. On a
success status it returns `Ok(Some(trimmed stdout))`. -/
theorem merge_base_classification :
    ∀ (w : World) (l r : String) (o : CapturedOutput),
      w.execOut "git" ["merge-base", l, r] = some o →
      (o.status.success = true →
        merge_base w l r = ([Event.execOut "git" ["merge-base", l, r]],
          Except.ok (some (rustTrim o.stdout)))) ∧
      (o.status.success = false →
        (((merge_base w l r).2 = Except.ok none) ↔
          (strContains o.stderr "No merge base" = true ∨
           strContains o.stderr "no common ancestor" = true ∨
           strContains o.stderr "Not a valid object name" = true ∨
           strContains o.stderr "unknown revision" = true ∨
           strContains o.stderr "Needed a single revision" = true ∨
           ((rustTrim o.stderr).isEmpty = true ∧
            (rustTrim o.stdout).isEmpty = true))) ∧
        ((merge_base w l r).2 = Except.ok none ∨
         (merge_base w l r).2 =
           Except.error (Err.mergeBaseFailed l r (rustTrim o.stderr)))) := by
  intro w l r o h
  constructor
  · intro hs
    simp [merge_base, execCaptured, EW.pure, h, hs]
  · intro hs
    have heq : (merge_base w l r).2 =
        if (strContains o.stderr "No merge base"
            || strContains o.stderr "no common ancestor"
            || strContains o.stderr "Not a valid object name"
            || strContains o.stderr "unknown revision"
            || strContains o.stderr "Needed a single revision"
            || ((rustTrim o.stderr).isEmpty && (rustTrim o.stdout).isEmpty)) = true
        then Except.ok none
        else Except.error (Err.mergeBaseFailed l r (rustTrim o.stderr)) := by
      simp [merge_base, execCaptured, EW.pure, EW.fail, h, hs]
      split <;> rfl
    cases hC : (strContains o.stderr "No merge base"
        || strContains o.stderr "no common ancestor"
        || strContains o.stderr "Not a valid object name"
        || strContains o.stderr "unknown revision"
        || strContains o.stderr "Needed a single revision"
        || ((rustTrim o.stderr).isEmpty && (rustTrim o.stdout).isEmpty)) with
    | true =>
      rw [if_pos hC] at heq
      refine ⟨?_, Or.inl heq⟩
      rw [heq]
      have hpat : strContains o.stderr "No merge base" = true ∨
          strContains o.stderr "no common ancestor" = true ∨
          strContains o.stderr "Not a valid object name" = true ∨
          strContains o.stderr "unknown revision" = true ∨
          strContains o.stderr "Needed a single revision" = true ∨
          ((rustTrim o.stderr).isEmpty = true ∧
           (rustTrim o.stdout).isEmpty = true) := by
        simp only [Bool.or_eq_true, Bool.and_eq_true] at hC
        tauto
      simp [hpat]
    | false =>
      rw [if_neg (by simp [hC])] at heq
      refine ⟨?_, Or.inr heq⟩
      rw [heq]
      constructor
      · intro hbad
        exact absurd hbad (by simp)
      · intro hpat
        exfalso
        have ht : (strContains o.stderr "No merge base"
            || strContains o.stderr "no common ancestor"
            || strContains o.stderr "Not a valid object name"
            || strContains o.stderr "unknown revision"
            || strContains o.stderr "Needed a single revision"
            || ((rustTrim o.stderr).isEmpty && (rustTrim o.stdout).isEmpty)) = true := by
          simp only [Bool.or_eq_true, Bool.and_eq_true]
          tauto
        rw [ht] at hC
        cases hC

/-- Witness for C3: in `wNoBase` the merge-base command fails with a
"Not a valid object name" message and `merge_base` returns `Ok(None)`. -/
theorem merge_base_classification_witness :
    wNoBase.execOut "git" ["merge-base", "main", "github/main"] = some mbOut ∧
    mbOut.status.success = false ∧
    (merge_base wNoBase "main" "github/main").2 = Except.ok none :=
  ⟨by decide, by decide,
    (((merge_base_classification wNoBase "main" "github/main" mbOut
      (by decide)).2 (by decide)).1).mpr (by decide)⟩

@[simp]
theorem okStatus_success : okStatus.success = true := rfl

@[simp]
theorem okStatus_code : okStatus.code = some 0 := rfl

@[simp]
theorem empty_string_isEmpty : "".isEmpty = true := rfl

/-- C10: whenever the message obtained from the arguments is empty — in
particular for `-m` followed by the empty string — `main` invokes the
interactive message prompt as its first external effect, the message that
reaches the confirmation step is the prompted one (the "Commit: ..." line
prints it), and the whole run is identical to a run with no arguments. -/
theorem empty_message_prompts :
    ∀ (w : World) (argv : List String),
      messageFromArgs argv = "" →
      (mainT w argv).1.head? = some (Event.input "Enter commit message") ∧
      ((mainT w argv).1.drop 1).head? =
        some (Event.print ("Commit: \"" ++ w.input "Enter commit message" ++ "\"")) ∧
      mainT w argv = mainT w [] := by
  intro w argv h
  refine ⟨?_, ?_, ?_⟩
  · simp [mainT, h, askInput, printLn, askConfirm, EW.pure]
  · simp [mainT, h, askInput, printLn, askConfirm, EW.pure]
  · simp only [mainT]
    rw [show messageFromArgs argv = messageFromArgs [] from by rw [h]; rfl]

/-- Witness for C10 at the concrete arguments `-m ""` in the all-yes world
`wBase` (whose prompt answers `hello`). -/
theorem empty_message_prompts_witness :
    messageFromArgs ["-m", ""] = "" ∧
    (mainT wBase ["-m", ""]).1.head? = some (Event.input "Enter commit message") ∧
    mainT wBase ["-m", ""] = mainT wBase [] :=
  ⟨by decide, (empty_message_prompts wBase ["-m", ""] (by decide)).1,
    (empty_message_prompts wBase ["-m", ""] (by decide)).2.2⟩

/-- C5: on the bootstrap path — the mirror remote has no main branch
(ls-remote exits 2) — the run stages everything, writes a tree, creates
exactly one commit via `commit-tree` invoked with no parent argument,
hard-resets local main to that commit, force-pushes it to github/main, and
terminates successfully; the trace below is the complete list of external
effects. -/
theorem bootstrap_path_single_rootless_commit :
    ∀ (w : World) (m t et c ec : String),
      m.isEmpty = false →
      w.confirm "Continue?" = true →
      w.exec "git" ["switch", "main"] = some okStatus →
      w.exec "git" ["pull", "origin", "main", "--ff-only"] = some okStatus →
      w.exec "git" ["ls-remote", "--exit-code", "github", "refs/heads/main"] =
        some ⟨some 2⟩ →
      w.exec "git" ["add", "."] = some okStatus →
      w.execOut "git" ["write-tree"] = some ⟨okStatus, t, et⟩ →
      w.execOut "git" ["commit-tree", rustTrim t, "-m", m] = some ⟨okStatus, c, ec⟩ →
      w.exec "git" ["reset", "--hard", rustTrim c] = some okStatus →
      w.exec "git" ["push", "github", "main", "--force"] = some okStatus →
      mainT w ["-m", m] =
        ([Event.print ("Commit: \"" ++ m ++ "\""),
          Event.confirm "Continue?",
          Event.print "Syncing GitLab main...",
          Event.exec "git" ["switch", "main"],
          Event.exec "git" ["pull", "origin", "main", "--ff-only"],
          Event.exec "git" ["ls-remote", "--exit-code", "github", "refs/heads/main"],
          Event.print "GitHub empty -> publish initial squashed release",
          Event.exec "git" ["add", "."],
          Event.execOut "git" ["write-tree"],
          Event.execOut "git" ["commit-tree", rustTrim t, "-m", m],
          Event.exec "git" ["reset", "--hard", rustTrim c],
          Event.exec "git" ["push", "github", "main", "--force"],
          Event.print ("Published to GitHub (initial, squashed): \"" ++ m ++ "\".")],
         Except.ok ()) := by
  intro w m t et c ec hm hcont hswitch hpull hls hadd hwt hct hreset hpush
  simp [mainT, messageFromArgs, sync_gitlab_main, github_branch_exists, run,
    run_output, execCmd, execCaptured, askConfirm, askInput, printLn, EW.pure,
    hm, hcont, hswitch, hpull, hls, hadd, hwt, hct, hreset, hpush]

/-- Witness for C5 at the concrete world `wBootstrap` and message "msg". -/
theorem bootstrap_path_witness :
    "msg".isEmpty = false ∧
    mainT wBootstrap ["-m", "msg"] =
      ([Event.print ("Commit: \"" ++ "msg" ++ "\""),
        Event.confirm "Continue?",
        Event.print "Syncing GitLab main...",
        Event.exec "git" ["switch", "main"],
        Event.exec "git" ["pull", "origin", "main", "--ff-only"],
        Event.exec "git" ["ls-remote", "--exit-code", "github", "refs/heads/main"],
        Event.print "GitHub empty -> publish initial squashed release",
        Event.exec "git" ["add", "."],
        Event.execOut "git" ["write-tree"],
        Event.execOut "git" ["commit-tree", rustTrim "cafe", "-m", "msg"],
        Event.exec "git" ["reset", "--hard", rustTrim "cafe"],
        Event.exec "git" ["push", "github", "main", "--force"],
        Event.print ("Published to GitHub (initial, squashed): \"" ++ "msg" ++ "\".")],
       Except.ok ()) :=
  ⟨by decide,
    bootstrap_path_single_rootless_commit wBootstrap "msg" "cafe" "" "cafe" ""
      (by decide) (by decide) (by decide) (by decide) (by decide) (by decide)
      (by decide) (by decide) (by decide) (by decide)⟩

/-- C6: on the incremental path — github/main exists and a merge base is
found — the run soft-resets to the base and stages everything; if the
commit step exits unsuccessfully it reports that there is nothing to
publish and terminates successfully with no push to the mirror remote in
its trace; if the commit succeeds it force-pushes local main to
github/main. -/
theorem incremental_path_nothing_to_publish :
    ∀ (w : World) (m b eb : String) (st : ExitStatus),
      m.isEmpty = false →
      w.confirm "Continue?" = true →
      w.exec "git" ["switch", "main"] = some okStatus →
      w.exec "git" ["pull", "origin", "main", "--ff-only"] = some okStatus →
      w.exec "git" ["ls-remote", "--exit-code", "github", "refs/heads/main"] =
        some okStatus →
      w.exec "git" ["fetch", "github"] = some okStatus →
      w.execOut "git" ["merge-base", "main", "github/main"] = some ⟨okStatus, b, eb⟩ →
      w.exec "git" ["reset", rustTrim b] = some okStatus →
      w.exec "git" ["add", "."] = some okStatus →
      w.exec "git" ["commit", "-m", m] = some st →
      w.exec "git" ["push", "github", "main", "--force"] = some okStatus →
      mainT w ["-m", m] =
        ([Event.print ("Commit: \"" ++ m ++ "\""),
          Event.confirm "Continue?",
          Event.print "Syncing GitLab main...",
          Event.exec "git" ["switch", "main"],
          Event.exec "git" ["pull", "origin", "main", "--ff-only"],
          Event.exec "git" ["ls-remote", "--exit-code", "github", "refs/heads/main"],
          Event.print "Fetching github/main...",
          Event.exec "git" ["fetch", "github"],
          Event.execOut "git" ["merge-base", "main", "github/main"],
          Event.print ("Base commit: " ++ rustTrim b),
          Event.print "Squashing and force-pushing...",
          Event.exec "git" ["reset", rustTrim b],
          Event.exec "git" ["add", "."],
          Event.exec "git" ["commit", "-m", m]] ++
         (if st.success then
            [Event.exec "git" ["push", "github", "main", "--force"],
             Event.print ("Published to GitHub: \"" ++ m ++ "\".")]
          else
            [Event.print "No changes since last GitHub release. Nothing to publish."]),
         Except.ok ()) := by
  intro w m b eb st hm hcont hswitch hpull hls hfetch hmb hreset hadd hcommit hpush
  cases hst : st.success with
  | true =>
    simp [mainT, messageFromArgs, sync_gitlab_main, github_branch_exists,
      merge_base, run, run_output, execCmd, execCaptured, askConfirm, askInput,
      printLn, EW.pure, hm, hcont, hswitch, hpull, hls, hfetch, hmb, hreset,
      hadd, hcommit, hpush, hst]
  | false =>
    simp [mainT, messageFromArgs, sync_gitlab_main, github_branch_exists,
      merge_base, run, run_output, execCmd, execCaptured, askConfirm, askInput,
      printLn, EW.pure, hm, hcont, hswitch, hpull, hls, hfetch, hmb, hreset,
      hadd, hcommit, hpush, hst]

/-- Witness for C6 at the concrete world `wIncrNothing`, whose commit step
exits 1: the run reports nothing to publish and issues no push. -/
theorem incremental_path_witness :
    "msg".isEmpty = false ∧
    mainT wIncrNothing ["-m", "msg"] =
      ([Event.print ("Commit: \"" ++ "msg" ++ "\""),
        Event.confirm "Continue?",
        Event.print "Syncing GitLab main...",
        Event.exec "git" ["switch", "main"],
        Event.exec "git" ["pull", "origin", "main", "--ff-only"],
        Event.exec "git" ["ls-remote", "--exit-code", "github", "refs/heads/main"],
        Event.print "Fetching github/main...",
        Event.exec "git" ["fetch", "github"],
        Event.execOut "git" ["merge-base", "main", "github/main"],
        Event.print ("Base commit: " ++ rustTrim "cafe"),
        Event.print "Squashing and force-pushing...",
        Event.exec "git" ["reset", rustTrim "cafe"],
        Event.exec "git" ["add", "."],
        Event.exec "git" ["commit", "-m", "msg"]] ++
       (if ExitStatus.success ⟨some 1⟩ then
          [Event.exec "git" ["push", "github", "main", "--force"],
           Event.print ("Published to GitHub: \"" ++ "msg" ++ "\".")]
        else
          [Event.print "No changes since last GitHub release. Nothing to publish."]),
       Except.ok ()) :=
  ⟨by decide,
    incremental_path_nothing_to_publish wIncrNothing "msg" "cafe" "" ⟨some 1⟩
      (by decide) (by decide) (by decide) (by decide) (by decide) (by decide)
      (by decide) (by decide) (by decide) (by decide) (by decide)⟩

theorem toNat_ofNatAux (n : Nat) (h : n.isValidChar) :
    (Char.ofNatAux n h).toNat = n := rfl

theorem isUpperAlpha_iff (c : Char) :
    isUpperAlpha c = true ↔ 65 ≤ c.toNat ∧ c.toNat ≤ 90 := by
  simp [isUpperAlpha]

theorem isLowerAlnum_iff (c : Char) :
    isLowerAlnum c = true ↔
      (97 ≤ c.toNat ∧ c.toNat ≤ 122) ∨ (48 ≤ c.toNat ∧ c.toNat ≤ 57) := by
  simp [isLowerAlnum]

theorem lowerChar_toNat_of_upper (c : Char) (h : isUpperAlpha c = true) :
    (lowerChar c).toNat = c.toNat + 32 := by
  simp [lowerChar, h, toNat_ofNatAux]

theorem lowerChar_of_not_upper (c : Char) (h : isUpperAlpha c = false) :
    lowerChar c = c := by
  simp [lowerChar, h]

theorem isUpperAlpha_lowerChar (c : Char) :
    isUpperAlpha (lowerChar c) = false := by
  rw [Bool.eq_false_iff]
  intro hup
  rw [isUpperAlpha_iff] at hup
  cases h : isUpperAlpha c with
  | true =>
    rw [lowerChar_toNat_of_upper c h] at hup
    have hb := (isUpperAlpha_iff c).mp h
    omega
  | false =>
    rw [lowerChar_of_not_upper c h] at hup
    exact absurd ((isUpperAlpha_iff c).mpr hup) (by simp [h])

theorem sanitizeChar_ok (c : Char) :
    isLowerAlnum (sanitizeChar c) = true ∨ sanitizeChar c = '-' := by
  unfold sanitizeChar
  cases hl : isLowerAlnum (lowerChar c) with
  | true =>
    left
    simp [hl, isUpperAlpha_lowerChar]
  | false =>
    right
    simp [hl, isUpperAlpha_lowerChar]

theorem sanitizeChar_fix (c : Char) (h : isLowerAlnum c = true ∨ c = '-') :
    sanitizeChar c = c := by
  rcases h with h | h
  · have hnu : isUpperAlpha c = false := by
      rw [Bool.eq_false_iff]
      intro hu
      rw [isUpperAlpha_iff] at hu
      rw [isLowerAlnum_iff] at h
      omega
    unfold sanitizeChar
    rw [lowerChar_of_not_upper c hnu, h]
    simp
  · subst h
    decide

theorem noDouble_cons (a : Char) (l : List Char) :
    noDoubleHyphen (a :: l) = true ↔
      (∀ b, l.head? = some b → ¬(a = '-' ∧ b = '-')) ∧
      noDoubleHyphen l = true := by
  cases l with
  | nil => simp [noDoubleHyphen]
  | cons b t =>
    simp only [noDoubleHyphen, Bool.and_eq_true, Bool.not_eq_true',
      Bool.and_eq_false_iff, beq_eq_false_iff_ne, ne_eq, List.head?_cons,
      Option.some.injEq]
    constructor
    · rintro ⟨h1, h2⟩
      refine ⟨?_, h2⟩
      rintro x rfl ⟨rfl, rfl⟩
      tauto
    · rintro ⟨h1, h2⟩
      refine ⟨?_, h2⟩
      by_cases ha : a = '-'
      · by_cases hb : b = '-'
        · exact absurd ⟨ha, hb⟩ (h1 b rfl)
        · tauto
      · tauto

theorem collapseHyphens_head (l : List Char) :
    (collapseHyphens l).head? = l.head? := by
  induction l using collapseHyphens.induct with
  | case1 => rfl
  | case2 c => rfl
  | case3 a b rest hab ih =>
    rw [collapseHyphens, if_pos hab, ih]
    simp only [Bool.and_eq_true, beq_iff_eq] at hab
    rw [hab.1, hab.2]
    rfl
  | case4 a b rest hab ih =>
    rw [collapseHyphens, if_neg hab]
    rfl

theorem collapseHyphens_noDouble (l : List Char) :
    noDoubleHyphen (collapseHyphens l) = true := by
  induction l using collapseHyphens.induct with
  | case1 => rfl
  | case2 c => rfl
  | case3 a b rest hab ih =>
    rw [collapseHyphens, if_pos hab]
    exact ih
  | case4 a b rest hab ih =>
    rw [collapseHyphens, if_neg hab]
    rw [noDouble_cons]
    refine ⟨?_, ih⟩
    intro x hx
    rw [collapseHyphens_head] at hx
    simp only [List.head?_cons, Option.some.injEq] at hx
    subst hx
    simp only [Bool.and_eq_true, beq_iff_eq, not_and] at hab
    tauto

theorem collapseHyphens_subset (l : List Char) :
    ∀ x ∈ collapseHyphens l, x ∈ l := by
  induction l using collapseHyphens.induct with
  | case1 => simp [collapseHyphens]
  | case2 c => simp [collapseHyphens]
  | case3 a b rest hab ih =>
    intro x hx
    rw [collapseHyphens, if_pos hab] at hx
    exact List.mem_cons_of_mem a (ih x hx)
  | case4 a b rest hab ih =>
    intro x hx
    rw [collapseHyphens, if_neg hab] at hx
    rcases List.mem_cons.mp hx with h | h
    · exact h ▸ List.mem_cons_self x (b :: rest)
    · exact List.mem_cons_of_mem a (ih x h)

theorem collapseHyphens_fix (l : List Char) (h : noDoubleHyphen l = true) :
    collapseHyphens l = l := by
  induction l using collapseHyphens.induct with
  | case1 => rfl
  | case2 c => rfl
  | case3 a b rest hab ih =>
    simp only [noDoubleHyphen, Bool.and_eq_true, Bool.not_eq_true'] at h
    rw [hab] at h
    exact absurd h.1 (by simp)
  | case4 a b rest hab ih =>
    simp only [noDoubleHyphen, Bool.and_eq_true, Bool.not_eq_true'] at h
    rw [collapseHyphens, if_neg hab, ih h.2]

theorem noDouble_iff_chain (l : List Char) :
    noDoubleHyphen l = true ↔
      List.Chain' (fun a b : Char => ¬(a = '-' ∧ b = '-')) l := by
  induction l with
  | nil => simp [noDoubleHyphen]
  | cons a t ih =>
    cases t with
    | nil => simp [noDoubleHyphen]
    | cons b r =>
      rw [List.chain'_cons, ← ih]
      simp only [noDoubleHyphen, Bool.and_eq_true, Bool.not_eq_true',
        Bool.and_eq_false_iff, beq_eq_false_iff_ne, ne_eq]
      tauto

theorem trimHyphens_subset (l : List Char) :
    ∀ x ∈ trimHyphens l, x ∈ l := by
  intro x hx
  unfold trimHyphens at hx
  have hp := List.rdropWhile_prefix (fun c : Char => c == '-')
    (l.dropWhile fun c => c == '-')
  have h1 : x ∈ (l.dropWhile fun c => c == '-') := hp.sublist.subset hx
  exact (List.dropWhile_suffix _).sublist.subset h1

theorem trimHyphens_noDouble (l : List Char) (h : noDoubleHyphen l = true) :
    noDoubleHyphen (trimHyphens l) = true := by
  rw [noDouble_iff_chain] at h ⊢
  have hp := List.rdropWhile_prefix (fun c : Char => c == '-')
    (l.dropWhile fun c => c == '-')
  exact List.Chain'.prefix (h.suffix (List.dropWhile_suffix _)) hp

theorem trimHyphens_head (l : List Char) (h : trimHyphens l ≠ []) :
    (trimHyphens l).head? ≠ some '-' := by
  obtain ⟨t, ht⟩ := List.rdropWhile_prefix (fun c : Char => c == '-')
    (l.dropWhile fun c => c == '-')
  cases htl : trimHyphens l with
  | nil => exact absurd htl h
  | cons x xs =>
    unfold trimHyphens at htl
    rw [htl] at ht
    have hm : (l.dropWhile fun c => c == '-') = x :: (xs ++ t) := by
      rw [← ht]
      simp
    have hne : (l.dropWhile fun c => c == '-') ≠ [] := by
      rw [hm]
      simp
    have hhd := List.head_dropWhile_not (fun c : Char => c == '-') l hne
    have hh1 : (l.dropWhile fun c => c == '-').head? = some x := by
      rw [hm]
      rfl
    rw [List.head?_eq_head hne] at hh1
    rw [Option.some_inj] at hh1
    rw [hh1] at hhd
    simp only [beq_eq_false_iff_ne, ne_eq] at hhd
    simp [hhd]

theorem trimHyphens_last (l : List Char) (h : trimHyphens l ≠ []) :
    (trimHyphens l).getLast? ≠ some '-' := by
  have hlast := List.rdropWhile_last_not (fun c : Char => c == '-')
    (l.dropWhile fun c => c == '-') h
  simp only [beq_iff_eq] at hlast
  rw [List.getLast?_eq_getLast _ h]
  intro hc
  rw [Option.some_inj] at hc
  exact hlast hc

theorem map_fix_of_mem {α : Type} (f : α → α) :
    ∀ l : List α, (∀ c ∈ l, f c = c) → l.map f = l := by
  intro l h
  induction l with
  | nil => rfl
  | cons a t ih =>
    simp only [List.map_cons, h a (List.mem_cons_self a t)]
    rw [ih fun c hc => h c (List.mem_cons_of_mem a hc)]

theorem deriveChars_good (l : List Char) (h : deriveChars l ≠ []) :
    (∀ c ∈ deriveChars l, isLowerAlnum c = true ∨ c = '-') ∧
    (deriveChars l).head? ≠ some '-' ∧
    (deriveChars l).getLast? ≠ some '-' ∧
    noDoubleHyphen (deriveChars l) = true := by
  refine ⟨?_, ?_, ?_, ?_⟩
  · intro c hc
    unfold deriveChars at hc
    have h1 := trimHyphens_subset _ c hc
    have h2 := collapseHyphens_subset _ c h1
    obtain ⟨c0, _, rfl⟩ := List.mem_map.mp h2
    exact sanitizeChar_ok c0
  · exact trimHyphens_head _ h
  · exact trimHyphens_last _ h
  · exact trimHyphens_noDouble _ (collapseHyphens_noDouble _)

theorem deriveChars_fix (r : List Char)
    (hall : ∀ c ∈ r, isLowerAlnum c = true ∨ c = '-')
    (hh : r.head? ≠ some '-') (hl : r.getLast? ≠ some '-')
    (hnd : noDoubleHyphen r = true) :
    deriveChars r = r := by
  have hmap : r.map sanitizeChar = r :=
    map_fix_of_mem sanitizeChar r fun c hc => sanitizeChar_fix c (hall c hc)
  have hcol : collapseHyphens r = r := collapseHyphens_fix r hnd
  have hdrop : (r.dropWhile fun c => c == '-') = r := by
    rw [List.dropWhile_eq_self_iff]
    intro hlen
    cases r with
    | nil => simp at hlen
    | cons a t =>
      simp only [List.head?_cons, ne_eq, Option.some.injEq] at hh
      simp [hh]
  have hrdrop : List.rdropWhile (fun c : Char => c == '-') r = r := by
    rw [List.rdropWhile_eq_self_iff]
    intro hne
    rw [List.getLast?_eq_getLast _ hne, ne_eq, Option.some_inj] at hl
    simp [hl]
  unfold deriveChars trimHyphens
  rw [hmap, hcol, hdrop, hrdrop]

/-- C8 (spec-modelled): `derive` is a total branch-name derivation: for
every string its value is in the language of `[a-z0-9]+(-[a-z0-9]+)*` or is
exactly "new"; it is idempotent; and the empty string derives to "new". -/
theorem derive_branch_name_spec :
    ∀ s : String,
      (goodName (derive s) ∨ derive s = "new") ∧
      derive (derive s) = derive s ∧ derive "" = "new" := by
  intro s
  refine ⟨?_, ?_, by decide⟩
  · cases hr : (deriveChars s.data).isEmpty with
    | true =>
      right
      simp [derive, hr]
    | false =>
      left
      have hne : deriveChars s.data ≠ [] := by
        intro hc
        rw [hc] at hr
        simp at hr
      have hg := deriveChars_good s.data hne
      have hds : derive s = String.mk (deriveChars s.data) := by
        simp [derive, hr]
      rw [hds]
      exact ⟨hne, hg.1, hg.2.1, hg.2.2.1, hg.2.2.2⟩
  · cases hr : (deriveChars s.data).isEmpty with
    | true =>
      have hds : derive s = "new" := by simp [derive, hr]
      rw [hds]
      decide
    | false =>
      have hne : deriveChars s.data ≠ [] := by
        intro hc
        rw [hc] at hr
        simp at hr
      have hg := deriveChars_good s.data hne
      have hds : derive s = String.mk (deriveChars s.data) := by
        simp [derive, hr]
      have hfix : deriveChars (deriveChars s.data) = deriveChars s.data :=
        deriveChars_fix _ hg.1 hg.2.1 hg.2.2.1 hg.2.2.2
      rw [hds]
      show (if (deriveChars (String.mk (deriveChars s.data)).data).isEmpty
          then "new"
          else String.mk (deriveChars (String.mk (deriveChars s.data)).data)) =
        String.mk (deriveChars s.data)
      have hdata : (String.mk (deriveChars s.data)).data = deriveChars s.data := rfl
      rw [hdata, hfix, hr]
      simp
